import Mathlib

/-
Verification development for the runtimed IOPub bridge
(src/python/runtimed/src/runtimed/_ipython_bridge.py).

The Python source is shallowly embedded: dictionaries become association
lists with first-match semantics, IOPub messages become an inductive type,
stateful hooks become pure functions returning the new state together with
the list of messages published, and code that can raise is modelled with
explicit success flags or Except. Machine-level concerns (sockets, threads)
are abstracted to the traces the claims speak about.
-/

namespace RuntimedBridge

/-- Python dict modelled as an association list. Python dict keys are
unique; the operations below use first-match semantics, which coincides
with Python semantics on duplicate-free lists and is stated so that the
theorems hold for arbitrary lists. -/
abbrev Dict := List (String × String)

/-- Python membership test, the expression k in d. -/
def dictMem (k : String) : Dict → Bool
  | [] => false
  | p :: rest => p.1 == k || dictMem k rest

/-- Python lookup d[k] as an Option (first match). -/
def dictGet (k : String) : Dict → Option String
  | [] => none
  | p :: rest => if p.1 == k then some p.2 else dictGet k rest

/-- Python del d[k]: removes every binding of the key (a Python dict has
at most one, so this coincides with deleting the single entry). -/
def dictErase (k : String) : Dict → Dict
  | [] => []
  | p :: rest => if p.1 == k then dictErase k rest else p :: dictErase k rest

/-- Python assignment d[k] = v: replace the existing entry in place,
otherwise append at the end (insertion order). -/
def dictSet (k v : String) : Dict → Dict
  | [] => [(k, v)]
  | p :: rest => if p.1 == k then (k, v) :: rest else p :: dictSet k v rest

/-- The IOPub messages the bridge publishes, by message type and content
fields, mirroring the content dicts built in the source. -/
inductive IOPubMsg where
  | status (execution_state : String)
  | executeResult (execution_count : Nat) (data : Dict) (metadata : Dict)
  | errorMsg (ename : String) (evalue : String) (traceback : List String)
  | displayData (data : Dict) (metadata : Dict) (transient : Dict)
  | updateDisplayData (data : Dict) (metadata : Dict) (transient : Dict)
  | stream (name : String) (text : String)
  deriving DecidableEq, Repr

/-- The data field of an outbound MIME-bundle message, when it has one. -/
def dataOf : IOPubMsg → Option Dict
  | IOPubMsg.executeResult _ d _ => some d
  | IOPubMsg.displayData d _ _ => some d
  | IOPubMsg.updateDisplayData d _ _ => some d
  | _ => none

/-- Source constant _WIDGET_VIEW_MIMETYPE. -/
def WIDGET_VIEW_MIMETYPE : String := "application/vnd.jupyter.widget-view+json"

/-- Source constant _WIDGET_PLACEHOLDER_HTML (the concatenated literal). -/
def WIDGET_PLACEHOLDER_HTML : String :=
  "<div style=\"padding: 8px 12px; border: 1px solid #e0e0e0; border-radius: 4px; background: #f8f8f8; color: #666; font-size: 13px;\">&#9432; Widgets are not supported in the IPython Sidecar Bridge<br>Use <code>jupyter console</code> for full widget support.</div>"

/-- Source constant, the fallback text/plain value added by the rewrite. -/
def WIDGET_PLAIN_FALLBACK : String := "(widget not available in bridged mode)"

/-- Embedding of _rewrite_widget_data. The source takes a shallow copy
(data = dict(data)) before mutating, so in this pure embedding the copy
is simply a new value and the input value is untouched; when the widget
key is absent the source returns the input object itself. -/
def rewrite_widget_data (data : Dict) : Dict :=
  if dictMem WIDGET_VIEW_MIMETYPE data then
    let d1 := dictErase WIDGET_VIEW_MIMETYPE data
    let d2 := dictSet "text/html" WIDGET_PLACEHOLDER_HTML d1
    if dictMem "text/plain" d2 then d2
    else dictSet "text/plain" WIDGET_PLAIN_FALLBACK d2
  else data

/-- Embedding of IPythonBridge.publish_execute_result: builds the content
from its arguments verbatim (no widget rewriting inside this method). -/
def publish_execute_result (data : Dict) (metadata : Dict)
    (execution_count : Nat) : IOPubMsg :=
  IOPubMsg.executeResult execution_count data metadata

/-- Embedding of IPythonBridge.publish_stream. -/
def publish_stream (name text : String) : IOPubMsg :=
  IOPubMsg.stream name text

/-- Embedding of IPythonBridge.publish_display_data: builds the content
from its arguments verbatim (no widget rewriting inside this method);
None defaults become empty dicts. -/
def publish_display_data (data : Dict) (metadata : Option Dict)
    (transient : Option Dict) : IOPubMsg :=
  IOPubMsg.displayData data (metadata.getD []) (transient.getD [])

/-- Embedding of IPythonBridge.publish_error. -/
def publish_error (ename evalue : String) (traceback : List String) : IOPubMsg :=
  IOPubMsg.errorMsg ename evalue traceback

/-- Embedding of IPythonBridge.publish_status. -/
def publish_status (execution_state : String) : IOPubMsg :=
  IOPubMsg.status execution_state

/-- Exception data observed by the bridge: type name and message string. -/
structure ExcInfo where
  ename : String
  evalue : String
  deriving DecidableEq, Repr

/-- The result object handed to the post_run_cell hook: an exception or
a result value (alpha stands for the Python value). -/
structure ExecResult (α : Type) where
  error_in_exec : Option ExcInfo
  error_before_exec : Option String
  result : Option α

/-- Embedding of the post_run_cell closure from install_bridge. Takes the
host formatter (which may raise, hence Except) and repr, the execution
count before the event, and the cell result; returns the new count and
the list of IOPub messages published in order. The count is incremented
before any publication, exactly as in the source. -/
def post_run_cell {α : Type} (format : α → Except Unit (Dict × Dict))
    (reprFn : α → String) (count : Nat) (res : ExecResult α) :
    Nat × List IOPubMsg :=
  let newCount := count + 1
  let middle : List IOPubMsg :=
    match res.error_in_exec with
    | some exc =>
        let tb : List String :=
          match res.error_before_exec with
          | some e => [e]
          | none => []
        [publish_error exc.ename exc.evalue tb]
    | none =>
        match res.result with
        | some v =>
            let fmd : Dict × Dict :=
              match format v with
              | Except.ok p => p
              | Except.error _ => ([("text/plain", reprFn v)], [])
            [publish_execute_result (rewrite_widget_data fmd.1) fmd.2 newCount]
        | none => []
  (newCount, publish_status "busy" :: middle ++ [publish_status "idle"])

/-- Sequential emission with possible transport failure: each send either
succeeds (sendOk returns true) or raises; the source has no try or
finally around its publish calls, so a raised send aborts the remaining
statements. Returns the messages that reached the wire and whether the
whole sequence completed without raising. -/
def emitWhile (sendOk : IOPubMsg → Bool) : List IOPubMsg → List IOPubMsg × Bool
  | [] => ([], true)
  | m :: rest =>
      if sendOk m then
        let t := emitWhile sendOk rest
        (m :: t.1, t.2)
      else ([], false)

/-- post_run_cell with fallible sends: the messages the source attempts,
in order, truncated at the first raising send (the exception then
propagates out of the hook). -/
def post_run_cell_with_transport {α : Type}
    (sendOk : IOPubMsg → Bool) (format : α → Except Unit (Dict × Dict))
    (reprFn : α → String) (count : Nat) (res : ExecResult α) :
    Nat × List IOPubMsg × Bool :=
  let r := post_run_cell format reprFn count res
  (r.1, emitWhile sendOk r.2)

/-- A transport that fails exactly on error messages. -/
def noErrorSends : IOPubMsg → Bool
  | IOPubMsg.errorMsg _ _ _ => false
  | _ => true

/-- The fixed formatter list enabled by install_bridge. -/
def RICH_MIME_TYPES : List String :=
  ["text/html", "text/latex", "text/markdown", "image/png", "image/jpeg",
   "image/svg+xml", "application/json", "application/javascript",
   "application/pdf"]

/-- The observable host state touched by install_bridge: the enabled flag
of each present formatter, and the nesting depth of each wrapper or the
number of registered cell-finished observers. -/
structure HostState where
  formatters : List (String × Bool)
  displayhookWraps : Nat
  observers : Nat
  stdoutWraps : Nat
  stderrWraps : Nat
  publishWraps : Nat
  deriving DecidableEq, Repr

/-- The formatter-enabling loop of install_bridge: every present formatter
whose MIME type is in the fixed list gets enabled = True. -/
def enable_rich_formatters (fs : List (String × Bool)) : List (String × Bool) :=
  fs.map (fun p => if RICH_MIME_TYPES.contains p.1 then (p.1, true) else p)

/-- Embedding of install_bridge as a transformation of the observable host
state: enables rich formatters, wraps the displayhook, registers one more
post_run_cell observer, wraps stdout and stderr with one more tee layer,
and wraps the display publisher. Each call also constructs a fresh bridge
with its own counters (not part of the host state recorded here). -/
def install_bridge (s : HostState) : HostState :=
  { formatters := enable_rich_formatters s.formatters
    displayhookWraps := s.displayhookWraps + 1
    observers := s.observers + 1
    stdoutWraps := s.stdoutWraps + 1
    stderrWraps := s.stderrWraps + 1
    publishWraps := s.publishWraps + 1 }

/-- A Python namespace for expression evaluation, name to value. -/
abbrev Scope := List (String × String)

/-- Outcome dict for one user expression in an execute_reply. -/
inductive ExprOutcome where
  | ok (data : Dict) (metadata : Dict)
  | err (ename : String) (evalue : String) (traceback : List String)
  deriving DecidableEq, Repr

/-- The execute_reply content built by _handle_execute. -/
structure ExecuteReply where
  status : String
  execution_count : Nat
  user_expressions : List (String × ExprOutcome)
  deriving DecidableEq, Repr

/-- Embedding of IPythonBridge._handle_execute. Evaluation is a parameter
ev taking the scope eval runs in; in the source the call is eval(expr)
with no namespace argument, so the scope actually supplied is the frame
of the handler itself, i.e. the namespace of the bridge module, and the
bridge object holds no reference to the host shell at all. Each entry is
wrapped in try and except, so an evaluation failure is recorded inline
and never propagates (the function is total). -/
def handle_execute (ev : Scope → String → Except ExcInfo String)
    (reprFn : String → String) (scope : Scope)
    (user_expressions : List (String × String)) (count : Nat) : ExecuteReply :=
  { status := "ok"
    execution_count := count
    user_expressions := user_expressions.map (fun kv =>
      (kv.1,
        match ev scope kv.2 with
        | Except.ok v => ExprOutcome.ok [("text/plain", reprFn v)] []
        | Except.error e => ExprOutcome.err e.ename e.evalue [])) }

/-- Modelled from the claim wording: the same handler but with every
entry evaluated in the host interpreter global scope, as the claim (and
spec section 4.4) states. -/
def handle_execute_hostscope (ev : Scope → String → Except ExcInfo String)
    (reprFn : String → String) (hostGlobals : Scope)
    (user_expressions : List (String × String)) (count : Nat) : ExecuteReply :=
  handle_execute ev reprFn hostGlobals user_expressions count

/-- A concrete evaluator: the expression is a variable name looked up in
the scope; a missing name raises NameError, as Python eval would. -/
def lookupEval (scope : Scope) (e : String) : Except ExcInfo String :=
  match dictGet e scope with
  | some v => Except.ok v
  | none => Except.error ⟨"NameError", "name is not defined"⟩

/-- One observable event at the heartbeat REP socket per loop iteration:
the 1 second poll timed out, a frame arrived, or a ZeroMQ error raised. -/
inductive HbEvent where
  | timeout
  | frame (msg : List Nat)
  | zmqError
  deriving DecidableEq, Repr

/-- Embedding of IPythonBridge._heartbeat_loop over the finite trace of
events observed while the running flag holds: a timeout continues, a
received frame is sent back unchanged, a ZeroMQ error exits the loop.
Returns the frames sent back, in order. -/
def heartbeat_loop : List HbEvent → List (List Nat)
  | [] => []
  | HbEvent.timeout :: rest => heartbeat_loop rest
  | HbEvent.frame m :: rest => m :: heartbeat_loop rest
  | HbEvent.zmqError :: _ => []

/-- Whether an event is the ZeroMQ error. -/
def isZmqError : HbEvent → Bool
  | HbEvent.zmqError => true
  | _ => false

/-- The payload of a frame event. -/
def frameBytes : HbEvent → Option (List Nat)
  | HbEvent.frame m => some m
  | _ => none

/-- Byte strings as lists of byte values. -/
abbrev Bytes := List Nat

/-- Lowercase hex digit for a value below 16: 48 is the code of 0 and 97
the code of a. -/
def hexDigitChar (n : Nat) : Nat :=
  if n < 10 then 48 + n else 87 + n

/-- Two lowercase hex characters for one byte. -/
def hexEncodeByte (b : Nat) : Bytes :=
  [hexDigitChar (b / 16), hexDigitChar (b % 16)]

/-- Lowercase hex encoding of a byte string, the hexdigest encoding. -/
def hexEncode (bs : Bytes) : Bytes :=
  (bs.map hexEncodeByte).flatten

/-- State of an hmac object: the key and the bytes fed so far. The HMAC
API guarantee that incremental update equals a single computation over
the concatenation is reflected by keeping the accumulated bytes. -/
structure HmacState where
  key : Bytes
  acc : Bytes

/-- hmac.new(key, digestmod=sha256). -/
def hmac_new (key : Bytes) : HmacState := ⟨key, []⟩

/-- h.update(part). -/
def hmac_update (h : HmacState) (part : Bytes) : HmacState :=
  ⟨h.key, h.acc ++ part⟩

/-- h.hexdigest().encode(): the digest of the accumulated bytes under the
keyed digest function H (HMAC-SHA256 left abstract), in lowercase hex. -/
def hmac_hexdigest (H : Bytes → Bytes → Bytes) (h : HmacState) : Bytes :=
  hexEncode (H h.key h.acc)

/-- Embedding of IPythonBridge._sign: a fresh hmac object updated with
each part in order, then hex-digested. -/
def sign (H : Bytes → Bytes → Bytes) (key : Bytes) (parts : List Bytes) : Bytes :=
  hmac_hexdigest H (parts.foldl hmac_update (hmac_new key))

/-- The wire delimiter frame, the bytes of the fixed literal. -/
def DELIM : Bytes := [60, 73, 68, 83, 124, 77, 83, 71, 62]

/-- Embedding of IPythonBridge._send after JSON serialization: given the
exact payload bytes of the four frames, signs them and assembles the
multipart message. -/
def send (H : Bytes → Bytes → Bytes) (key : Bytes) (identities : List Bytes)
    (header_b parent_b meta_b content_b : Bytes) : List Bytes :=
  identities ++ [DELIM, sign H key [header_b, parent_b, meta_b, content_b],
    header_b, parent_b, meta_b, content_b]

/-- Python truthiness of the data argument of the display publisher:
None and the empty dict are falsy. The embedding restricts data to
dicts, the case the isinstance guard in the source rewrites. -/
def truthy : Option Dict → Bool
  | none => false
  | some [] => false
  | some (_ :: _) => true

/-- Embedding of the patched_publish closure from install_bridge: the
original publish is invoked first on every path (first component); an
IOPub message is emitted only when data is truthy, with the widget
rewrite applied and the message type chosen by the update flag. -/
def patched_publish (data : Option Dict) (metadata : Option Dict)
    (transient : Option Dict) (update : Bool) : Bool × Option IOPubMsg :=
  if truthy data then
    let d := data.getD []
    let msg :=
      if update then
        IOPubMsg.updateDisplayData (rewrite_widget_data d)
          (metadata.getD []) (transient.getD [])
      else
        IOPubMsg.displayData (rewrite_widget_data d)
          (metadata.getD []) (transient.getD [])
    (true, some msg)
  else (true, none)

/-- Erasing a key makes it absent. -/
theorem dictMem_erase_self (k : String) (d : Dict) :
    dictMem k (dictErase k d) = false := by
  induction d with
  | nil => rfl
  | cons p rest ih =>
      cases h : p.1 == k with
      | true => simpa [dictErase, h] using ih
      | false => simpa [dictMem, dictErase, h] using ih

/-- Erasing one key leaves membership of another unchanged. -/
theorem dictMem_erase_ne (k k2 : String) (d : Dict) (h : k ≠ k2) :
    dictMem k (dictErase k2 d) = dictMem k d := by
  induction d with
  | nil => rfl
  | cons p rest ih =>
      obtain ⟨pk, pv⟩ := p
      cases hp : pk == k2 with
      | true =>
          have hpk : pk = k2 := eq_of_beq hp
          subst hpk
          have hk : (pk == k) = false := beq_eq_false_iff_ne.mpr (Ne.symm h)
          simp [dictErase, dictMem, hp, hk, ih]
      | false => simp [dictErase, dictMem, hp, ih]

/-- Setting one key leaves membership of another unchanged. -/
theorem dictMem_set_ne (k k2 v : String) (d : Dict) (h : k ≠ k2) :
    dictMem k (dictSet k2 v d) = dictMem k d := by
  have hk : (k2 == k) = false := beq_eq_false_iff_ne.mpr (Ne.symm h)
  induction d with
  | nil => simp [dictSet, dictMem, hk]
  | cons p rest ih =>
      obtain ⟨pk, pv⟩ := p
      cases hp : pk == k2 with
      | true =>
          have hpk : pk = k2 := eq_of_beq hp
          subst hpk
          simp [dictSet, dictMem, hp, hk]
      | false => simp [dictSet, dictMem, hp, ih]

/-- Lookup after setting the same key yields the new value. -/
theorem dictGet_set_self (k v : String) (d : Dict) :
    dictGet k (dictSet k v d) = some v := by
  induction d with
  | nil => simp [dictSet, dictGet]
  | cons p rest ih =>
      obtain ⟨pk, pv⟩ := p
      cases hp : pk == k with
      | true => simp [dictSet, dictGet, hp]
      | false => simp [dictSet, dictGet, hp, ih]

/-- Lookup of a key is unchanged by setting a different key. -/
theorem dictGet_set_ne (k k2 v : String) (d : Dict) (h : k ≠ k2) :
    dictGet k (dictSet k2 v d) = dictGet k d := by
  have hk : (k2 == k) = false := beq_eq_false_iff_ne.mpr (Ne.symm h)
  induction d with
  | nil => simp [dictSet, dictGet, hk]
  | cons p rest ih =>
      obtain ⟨pk, pv⟩ := p
      cases hp : pk == k2 with
      | true =>
          have hpk : pk = k2 := eq_of_beq hp
          subst hpk
          simp [dictSet, dictGet, hp, hk]
      | false => simp [dictSet, dictGet, hp, ih]

/-- Lookup of a key is unchanged by erasing a different key. -/
theorem dictGet_erase_ne (k k2 : String) (d : Dict) (h : k ≠ k2) :
    dictGet k (dictErase k2 d) = dictGet k d := by
  induction d with
  | nil => rfl
  | cons p rest ih =>
      obtain ⟨pk, pv⟩ := p
      cases hp : pk == k2 with
      | true =>
          have hpk : pk = k2 := eq_of_beq hp
          subst hpk
          have hk : (pk == k) = false := beq_eq_false_iff_ne.mpr (Ne.symm h)
          simp [dictErase, dictGet, hp, hk, ih]
      | false => simp [dictErase, dictGet, hp, ih]

/-- The widget key never survives the rewrite. -/
theorem dictMem_rewrite_widget (d : Dict) :
    dictMem WIDGET_VIEW_MIMETYPE (rewrite_widget_data d) = false := by
  cases hW : dictMem WIDGET_VIEW_MIMETYPE d with
  | false => simp [rewrite_widget_data, hW]
  | true =>
      have h1 : dictMem WIDGET_VIEW_MIMETYPE
          (dictSet "text/html" WIDGET_PLACEHOLDER_HTML
            (dictErase WIDGET_VIEW_MIMETYPE d)) = false := by
        rw [dictMem_set_ne _ _ _ _ (by decide), dictMem_erase_self]
      simp only [rewrite_widget_data, hW, if_true]
      split
      · exact h1
      · rw [dictMem_set_ne _ _ _ _ (by decide)]
        exact h1

/-- After the rewrite of a widget bundle, text/html holds the placeholder. -/
theorem dictGet_html_rewrite (d : Dict)
    (hW : dictMem WIDGET_VIEW_MIMETYPE d = true) :
    dictGet "text/html" (rewrite_widget_data d) = some WIDGET_PLACEHOLDER_HTML := by
  simp only [rewrite_widget_data, hW, if_true]
  split
  · exact dictGet_set_self _ _ _
  · rw [dictGet_set_ne _ _ _ _ (by decide)]
    exact dictGet_set_self _ _ _

/-- When every send succeeds the whole message list reaches the wire. -/
theorem emitWhile_all (sendOk : IOPubMsg → Bool) (l : List IOPubMsg)
    (h : ∀ m ∈ l, sendOk m = true) : emitWhile sendOk l = (l, true) := by
  induction l with
  | nil => rfl
  | cons m rest ih =>
      have hm := h m (List.mem_cons_self m rest)
      have hrest := ih (fun x hx => h x (List.mem_cons_of_mem m hx))
      simp [emitWhile, hm, hrest]

/-- The formatter-enabling pass is idempotent. -/
theorem enable_rich_formatters_idem (fs : List (String × Bool)) :
    enable_rich_formatters (enable_rich_formatters fs) = enable_rich_formatters fs := by
  unfold enable_rich_formatters
  rw [List.map_map]
  apply List.map_congr_left
  intro p _
  by_cases h : p.1 ∈ RICH_MIME_TYPES
  · simp [Function.comp, h]
  · simp [Function.comp, h]

/-- C1: for every observed cell-finished event the observer first
increments the execution count (so the count published is the count
after the increment), then publishes exactly one status busy, then
exactly one error message if the cell raised, or exactly one
execute_result carrying the current count if the cell result is
non-null, or nothing, then exactly one status idle, in that order. -/
theorem c1_cell_finished_lifecycle {α : Type}
    (format : α → Except Unit (Dict × Dict)) (reprFn : α → String)
    (count : Nat) (res : ExecResult α) :
    (post_run_cell format reprFn count res).1 = count + 1 ∧
    ∃ middle : List IOPubMsg,
      (post_run_cell format reprFn count res).2 =
        publish_status "busy" :: middle ++ [publish_status "idle"] ∧
      ((∃ exc, res.error_in_exec = some exc ∧
          ∃ tb, middle = [publish_error exc.ename exc.evalue tb]) ∨
       (res.error_in_exec = none ∧ ∃ v, res.result = some v ∧
          ∃ dd md, middle = [publish_execute_result dd md (count + 1)]) ∨
       (res.error_in_exec = none ∧ res.result = none ∧ middle = [])) := by
  refine ⟨rfl, ?_⟩
  rcases hres : res.error_in_exec with _ | exc
  · rcases hr : res.result with _ | v
    · refine ⟨[], ?_, Or.inr (Or.inr ⟨rfl, rfl, rfl⟩)⟩
      simp [post_run_cell, hres, hr]
    · rcases hf : format v with e | p
      · refine ⟨[publish_execute_result
            (rewrite_widget_data [("text/plain", reprFn v)]) [] (count + 1)], ?_,
          Or.inr (Or.inl ⟨rfl, v, rfl, _, _, rfl⟩)⟩
        simp [post_run_cell, hres, hr, hf]
      · refine ⟨[publish_execute_result (rewrite_widget_data p.1) p.2 (count + 1)], ?_,
          Or.inr (Or.inl ⟨rfl, v, rfl, _, _, rfl⟩)⟩
        simp [post_run_cell, hres, hr, hf]
  · rcases hbe : res.error_before_exec with _ | e
    · refine ⟨[publish_error exc.ename exc.evalue []], ?_,
        Or.inl ⟨exc, rfl, [], rfl⟩⟩
      simp [post_run_cell, hres, hbe]
    · refine ⟨[publish_error exc.ename exc.evalue [e]], ?_,
        Or.inl ⟨exc, rfl, [e], rfl⟩⟩
      simp [post_run_cell, hres, hbe]

/-- C2 counterexample: a cell that raised, together with a transport
whose send raises on the error message, yields a wire trace in which
the intermediate publication raised and no status idle was ever
published (the source has no try or finally around the publishes), so
the hook ends without completing. -/
theorem c2_counterexample_idle_lost :
    (post_run_cell_with_transport noErrorSends
        (fun _ : Unit => Except.ok ([], [])) (fun _ => "()") 0
        ⟨some ⟨"ValueError", "boom"⟩, none, none⟩).2 =
      ([publish_status "busy"], false) ∧
    publish_status "idle" ∉
      (post_run_cell_with_transport noErrorSends
        (fun _ : Unit => Except.ok ([], [])) (fun _ => "()") 0
        ⟨some ⟨"ValueError", "boom"⟩, none, none⟩).2.1 := by
  constructor
  · rfl
  · decide

/-- C2 amended: the status idle message is published for a cell-finished
event exactly when every send of the event reaches the wire; when every
send succeeds, the full trace is emitted and ends with status idle, but
a raising intermediate publish aborts the hook before idle. -/
theorem c2_idle_requires_successful_sends {α : Type}
    (sendOk : IOPubMsg → Bool) (format : α → Except Unit (Dict × Dict))
    (reprFn : α → String) (count : Nat) (res : ExecResult α)
    (h : ∀ m, sendOk m = true) :
    (post_run_cell_with_transport sendOk format reprFn count res).2 =
      ((post_run_cell format reprFn count res).2, true) ∧
    (post_run_cell_with_transport sendOk format reprFn count res).2.1.getLast? =
      some (publish_status "idle") := by
  have hall : emitWhile sendOk (post_run_cell format reprFn count res).2 =
      ((post_run_cell format reprFn count res).2, true) :=
    emitWhile_all sendOk _ (fun m _ => h m)
  refine ⟨hall, ?_⟩
  show (emitWhile sendOk (post_run_cell format reprFn count res).2).1.getLast? = _
  rw [hall]
  rcases hres : res.error_in_exec with _ | exc
  · rcases hr : res.result with _ | v
    · simp [post_run_cell, hres, hr]
    · simp [post_run_cell, hres, hr]
  · simp [post_run_cell, hres]

/-- C2 amended, witness at a concrete event with an all-successful
transport. -/
theorem c2_idle_requires_successful_sends_witness :
    (post_run_cell_with_transport (fun _ => true)
        (fun _ : Unit => Except.ok ([], [])) (fun _ => "()") 0
        ⟨none, none, some ()⟩).2.1.getLast? = some (publish_status "idle") :=
  (c2_idle_requires_successful_sends (fun _ => true)
    (fun _ : Unit => Except.ok ([], [])) (fun _ => "()") 0
    ⟨none, none, some ()⟩ (fun _ => rfl)).2

/-- C8: the heartbeat loop echoes every received frame unchanged, and a
ZeroMQ error exits the loop, so the frames sent back are exactly the
frames received before the first ZeroMQ error, byte for byte. -/
theorem c8_heartbeat_echo (evs : List HbEvent) :
    heartbeat_loop evs =
      (evs.takeWhile (fun e => !isZmqError e)).filterMap frameBytes := by
  induction evs with
  | nil => rfl
  | cons e rest ih =>
      cases e with
      | timeout => simpa [heartbeat_loop, List.takeWhile_cons, isZmqError,
          frameBytes, List.filterMap_cons] using ih
      | frame m => simpa [heartbeat_loop, List.takeWhile_cons, isZmqError,
          frameBytes, List.filterMap_cons] using ih
      | zmqError => simp [heartbeat_loop, List.takeWhile_cons, isZmqError]

/-- C9: the wrapped display publisher invokes the original publish on
every call (first component), emits no IOPub message when data is None
or an empty dict, and for non-empty data emits exactly one message whose
type is update_display_data exactly when the update flag is true. -/
theorem c9_patched_publish_gating (metadata transient : Option Dict)
    (update : Bool) (q : String × String) (rest : Dict) :
    patched_publish none metadata transient update = (true, none) ∧
    patched_publish (some []) metadata transient update = (true, none) ∧
    patched_publish (some (q :: rest)) metadata transient update =
      (true, some (if update then
          IOPubMsg.updateDisplayData (rewrite_widget_data (q :: rest))
            (metadata.getD []) (transient.getD [])
        else
          IOPubMsg.displayData (rewrite_widget_data (q :: rest))
            (metadata.getD []) (transient.getD []))) := by
  refine ⟨rfl, rfl, ?_⟩
  by_cases h : update
  · simp [patched_publish, truthy, h]
  · simp [patched_publish, truthy, h]

/-- C3 counterexample: the publisher operation publish_display_data sends
its data argument verbatim, so calling it with a bundle containing the
widget-view key puts that key on the wire; no rewriting is applied inside
the publisher operations (publish_execute_result is verbatim as well). -/
theorem c3_counterexample_display_data_unrewritten :
    dataOf (publish_display_data [(WIDGET_VIEW_MIMETYPE, "w")] none none) =
      some [(WIDGET_VIEW_MIMETYPE, "w")] ∧
    dictMem WIDGET_VIEW_MIMETYPE [(WIDGET_VIEW_MIMETYPE, "w")] = true ∧
    dataOf (publish_execute_result [(WIDGET_VIEW_MIMETYPE, "w")] [] 1) =
      some [(WIDGET_VIEW_MIMETYPE, "w")] := by
  refine ⟨rfl, ?_, rfl⟩
  decide

/-- C3 amended: widget-view rewriting is applied at the call sites that
feed the wire during normal operation, namely the cell-finished observer
(before publish_execute_result) and the wrapped display publisher (both
the display_data and the update_display_data case), so no message emitted
on those two paths carries the widget-view key in its data field; the
publisher operations themselves do not rewrite. -/
theorem c3_rewrite_on_observer_and_patched_paths {α : Type}
    (format : α → Except Unit (Dict × Dict)) (reprFn : α → String)
    (count : Nat) (res : ExecResult α) (data metadata transient : Option Dict)
    (update : Bool) :
    (∀ m ∈ (post_run_cell format reprFn count res).2, ∀ d, dataOf m = some d →
        dictMem WIDGET_VIEW_MIMETYPE d = false) ∧
    (∀ msg, (patched_publish data metadata transient update).2 = some msg →
        ∀ d, dataOf msg = some d → dictMem WIDGET_VIEW_MIMETYPE d = false) := by
  constructor
  · intro m hm d hd
    rcases hres : res.error_in_exec with _ | exc
    · rcases hr : res.result with _ | v
      · simp [post_run_cell, hres, hr, publish_status] at hm
        rcases hm with h1 | h1 <;> subst h1 <;> simp [dataOf] at hd
      · simp [post_run_cell, hres, hr, publish_status,
          publish_execute_result] at hm
        rcases hm with h1 | h1 | h1
        · subst h1; simp [dataOf] at hd
        · subst h1
          simp [dataOf] at hd
          subst hd
          exact dictMem_rewrite_widget _
        · subst h1; simp [dataOf] at hd
    · simp [post_run_cell, hres, publish_status, publish_error] at hm
      rcases hm with h1 | h1 | h1 <;> subst h1 <;> simp [dataOf] at hd
  · intro msg hmsg d hd
    cases ht : truthy data with
    | false => simp [patched_publish, ht] at hmsg
    | true =>
        cases update with
        | false =>
            simp [patched_publish, ht] at hmsg
            subst hmsg
            simp [dataOf] at hd
            subst hd
            exact dictMem_rewrite_widget _
        | true =>
            simp [patched_publish, ht] at hmsg
            subst hmsg
            simp [dataOf] at hd
            subst hd
            exact dictMem_rewrite_widget _

/-- C3 amended, witness on the patched display-publish path at a concrete
widget bundle. -/
theorem c3_rewrite_on_observer_and_patched_paths_witness :
    dictMem WIDGET_VIEW_MIMETYPE
      (rewrite_widget_data [(WIDGET_VIEW_MIMETYPE, "w")]) = false := by
  have h := c3_rewrite_on_observer_and_patched_paths
    (fun _ : Unit => Except.ok ([(WIDGET_VIEW_MIMETYPE, "w")], []))
    (fun _ => "()") 0 ⟨none, none, some ()⟩
    (some [(WIDGET_VIEW_MIMETYPE, "w")]) none none false
  exact h.2
    (IOPubMsg.displayData (rewrite_widget_data [(WIDGET_VIEW_MIMETYPE, "w")]) [] [])
    rfl _ rfl

/-- C4: for every outgoing message, the signature frame equals the
lowercase-hex digest of the keyed hash (HMAC-SHA256, left abstract as H)
of the concatenation, in order, of the exact bytes of the four payload
frames header, parent_header, metadata and content that follow it on the
wire; the hex encoding is lowercase ASCII hex. -/
theorem c4_signature_over_transmitted_frames (H : Bytes → Bytes → Bytes)
    (key : Bytes) (identities : List Bytes) (h p m c : Bytes)
    (hbytes : ∀ b ∈ H key (h ++ p ++ m ++ c), b < 256) :
    send H key identities h p m c =
      identities ++ [DELIM, hexEncode (H key (h ++ p ++ m ++ c)), h, p, m, c] ∧
    ∀ ch ∈ hexEncode (H key (h ++ p ++ m ++ c)),
      (48 ≤ ch ∧ ch ≤ 57) ∨ (97 ≤ ch ∧ ch ≤ 102) := by
  constructor
  · simp [send, sign, hmac_hexdigest, hmac_update, hmac_new, List.foldl,
      List.append_assoc]
  · intro ch hch
    simp only [hexEncode, List.mem_flatten, List.mem_map] at hch
    obtain ⟨l, ⟨b, hb, hl⟩, hchl⟩ := hch
    subst hl
    have hb256 : b < 256 := hbytes b hb
    simp only [hexEncodeByte, List.mem_cons, List.mem_singleton] at hchl
    have hrange : ∀ n : Nat, n < 16 →
        (48 ≤ hexDigitChar n ∧ hexDigitChar n ≤ 57) ∨
        (97 ≤ hexDigitChar n ∧ hexDigitChar n ≤ 102) := by
      intro n hn
      unfold hexDigitChar
      split <;> omega
    rcases hchl with h1 | h1 | h1
    · subst h1; exact hrange _ (Nat.div_lt_of_lt_mul (by omega))
    · subst h1; exact hrange _ (Nat.mod_lt _ (by omega))
    · cases h1

/-- C4 witness at a concrete abstract digest and concrete frames. -/
theorem c4_signature_over_transmitted_frames_witness :
    send (fun _ _ => [0, 171, 255]) [1] [] [2] [3] [4] [5] =
      [DELIM, hexEncode [0, 171, 255], [2], [3], [4], [5]] ∧
    ∀ ch ∈ hexEncode [0, 171, 255],
      (48 ≤ ch ∧ ch ≤ 57) ∨ (97 ≤ ch ∧ ch ≤ 102) :=
  c4_signature_over_transmitted_frames (fun _ _ => [0, 171, 255]) [1] []
    [2] [3] [4] [5] (by decide)

/-- C5 counterexample: installing the bridge twice on the same host does
not leave the host as after a single installation; the second call
registers a second cell-finished observer and stacks a second wrapper on
stdout, stderr, the displayhook and the display publisher. -/
theorem c5_counterexample_double_install :
    install_bridge (install_bridge
        ⟨[("text/html", false)], 0, 0, 0, 0, 0⟩) ≠
      install_bridge ⟨[("text/html", false)], 0, 0, 0, 0, 0⟩ := by
  decide

/-- C5 amended: installation is not idempotent; each call adds one
registered observer and one wrapper layer on each of the four wrapped
hooks, and only the formatter-enabling step is idempotent. -/
theorem c5_install_stacks_wrappers (s : HostState) :
    (install_bridge (install_bridge s)).observers = s.observers + 2 ∧
    (install_bridge (install_bridge s)).stdoutWraps = s.stdoutWraps + 2 ∧
    (install_bridge (install_bridge s)).stderrWraps = s.stderrWraps + 2 ∧
    (install_bridge (install_bridge s)).displayhookWraps = s.displayhookWraps + 2 ∧
    (install_bridge (install_bridge s)).publishWraps = s.publishWraps + 2 ∧
    (install_bridge (install_bridge s)).formatters = (install_bridge s).formatters := by
  refine ⟨rfl, rfl, rfl, rfl, rfl, ?_⟩
  exact enable_rich_formatters_idem s.formatters

/-- C6 counterexample: with evaluation modelled as variable lookup, the
reply computed in the scope the source actually uses (the call eval with
no namespace argument runs in the frame of the handler, i.e. the bridge
module, which holds no session variables and no reference to the host
shell) differs from the reply the claim describes, evaluation in the
host interpreter global scope, on a host that defines the variable. -/
theorem c6_counterexample_eval_scope :
    handle_execute lookupEval (fun v => v) [] [("a", "x")] 1 ≠
      handle_execute_hostscope lookupEval (fun v => v) [("x", "5")]
        [("a", "x")] 1 := by
  decide

/-- C6 amended: each user expression is evaluated in the scope of the
handler frame (the bridge module namespace), not the host interpreter
global scope; a successful evaluation yields an ok entry with a
text/plain repr and empty metadata, a raising one yields an inline error
entry with the exception type name, message and empty traceback, the
exception never propagates (the handler is total), and the reply is
status ok with the current execution count and the entry map. -/
theorem c6_execute_reply_shape (ev : Scope → String → Except ExcInfo String)
    (reprFn : String → String) (scope : Scope)
    (ues : List (String × String)) (count : Nat) :
    (handle_execute ev reprFn scope ues count).status = "ok" ∧
    (handle_execute ev reprFn scope ues count).execution_count = count ∧
    (handle_execute ev reprFn scope ues count).user_expressions =
      ues.map (fun kv =>
        (kv.1,
          match ev scope kv.2 with
          | Except.ok v => ExprOutcome.ok [("text/plain", reprFn v)] []
          | Except.error e => ExprOutcome.err e.ename e.evalue [])) :=
  ⟨rfl, rfl, rfl⟩

/-- C7: the rewrite never mutates its input (the embedding is pure and
the source copies before editing); when the widget key is absent the very
input is returned; when present, the result drops the widget key, holds
the fixed placeholder under text/html, keeps an existing text/plain value
and otherwise adds the static fallback, and leaves every other key
unchanged. -/
theorem c7_rewrite_widget_contract (d : Dict) :
    (dictMem WIDGET_VIEW_MIMETYPE d = false → rewrite_widget_data d = d) ∧
    (dictMem WIDGET_VIEW_MIMETYPE d = true →
      dictMem WIDGET_VIEW_MIMETYPE (rewrite_widget_data d) = false ∧
      dictGet "text/html" (rewrite_widget_data d) = some WIDGET_PLACEHOLDER_HTML ∧
      (dictMem "text/plain" d = true →
        dictGet "text/plain" (rewrite_widget_data d) = dictGet "text/plain" d) ∧
      (dictMem "text/plain" d = false →
        dictGet "text/plain" (rewrite_widget_data d) = some WIDGET_PLAIN_FALLBACK) ∧
      (∀ k, k ≠ WIDGET_VIEW_MIMETYPE → k ≠ "text/html" → k ≠ "text/plain" →
        dictGet k (rewrite_widget_data d) = dictGet k d)) := by
  constructor
  · intro h
    simp [rewrite_widget_data, h]
  · intro hW
    have hmemtp : dictMem "text/plain"
        (dictSet "text/html" WIDGET_PLACEHOLDER_HTML
          (dictErase WIDGET_VIEW_MIMETYPE d)) = dictMem "text/plain" d := by
      rw [dictMem_set_ne _ _ _ _ (by decide), dictMem_erase_ne _ _ _ (by decide)]
    refine ⟨dictMem_rewrite_widget d, dictGet_html_rewrite d hW, ?_, ?_, ?_⟩
    · intro hp
      simp only [rewrite_widget_data, hW, if_true]
      rw [hmemtp, hp, if_pos rfl]
      rw [dictGet_set_ne _ _ _ _ (by decide), dictGet_erase_ne _ _ _ (by decide)]
    · intro hp
      simp only [rewrite_widget_data, hW, if_true]
      rw [hmemtp, hp]
      simp only [Bool.false_eq_true, if_false]
      exact dictGet_set_self _ _ _
    · intro k hk1 hk2 hk3
      simp only [rewrite_widget_data, hW, if_true]
      split
      · rw [dictGet_set_ne _ _ _ _ hk2, dictGet_erase_ne _ _ _ hk1]
      · rw [dictGet_set_ne _ _ _ _ hk3, dictGet_set_ne _ _ _ _ hk2,
          dictGet_erase_ne _ _ _ hk1]

/-- C7 witness on both branches at concrete bundles. -/
theorem c7_rewrite_widget_contract_witness :
    rewrite_widget_data [("text/plain", "x")] = [("text/plain", "x")] ∧
    dictGet "text/html" (rewrite_widget_data [(WIDGET_VIEW_MIMETYPE, "w")]) =
      some WIDGET_PLACEHOLDER_HTML :=
  ⟨(c7_rewrite_widget_contract [("text/plain", "x")]).1 (by decide),
   ((c7_rewrite_widget_contract [(WIDGET_VIEW_MIMETYPE, "w")]).2 (by decide)).2.1⟩

/-- C10: when the input bundle contains the widget key and already has a
text/html entry, the rewrite unconditionally replaces that entry with
the fixed placeholder snippet. -/
theorem c10_widget_placeholder_overrides_html (d : Dict) (v : String)
    (hmem : dictMem WIDGET_VIEW_MIMETYPE d = true)
    (_hhtml : dictGet "text/html" d = some v) :
    dictGet "text/html" (rewrite_widget_data d) = some WIDGET_PLACEHOLDER_HTML :=
  dictGet_html_rewrite d hmem

/-- C10 witness at a bundle with a pre-existing text/html entry. -/
theorem c10_widget_placeholder_overrides_html_witness :
    dictGet "text/html" (rewrite_widget_data
      [(WIDGET_VIEW_MIMETYPE, "w"), ("text/html", "<b>old</b>")]) =
      some WIDGET_PLACEHOLDER_HTML :=
  c10_widget_placeholder_overrides_html
    [(WIDGET_VIEW_MIMETYPE, "w"), ("text/html", "<b>old</b>")] "<b>old</b>"
    (by decide) (by decide)

end RuntimedBridge
